import Mathlib

/-!
# Verification of the Image-Description-Toolkit workflow core

Shallow embedding of the workflow orchestration layer of the
Image-Description-Toolkit repository (`scripts/workflow.py` and
`scripts/workflow_utils.py`), together with theorems settling the
specification claims about it.

Paths are modelled as lists of components; the filesystem is modelled as a
set of existing directories and a set of existing files.  External step
programs are modelled by oracles giving each launched process's result.
-/

/-- A filesystem path, as a list of name components (as produced by
`pathlib.Path.parts`, without the root anchor). -/
abbrev FPath := List String

/-- `isPrefixPath p q` holds when the path `p` is a (not necessarily proper)
prefix of the path `q` — i.e. `q` is `p` itself or lies beneath `p`. -/
def isPrefixPath : FPath → FPath → Bool
  | [], _ => true
  | _ :: _, [] => false
  | a :: as, b :: bs => if a = b then isPrefixPath as bs else false

/-- `p` is a proper prefix of `q`: `q` lies strictly beneath the directory
`p`.  This is the relation underlying `pathlib`'s recursive glob. -/
def isStrictPrefix (p q : FPath) : Bool :=
  isPrefixPath p q && decide (p.length < q.length)

/-- The last component of a path (the file or directory name); `""` for the
empty path. -/
def fileName (p : FPath) : String := p.getLast?.getD ""

/-- All nonempty prefixes of a path: the chain of directories that
`Path.mkdir(parents=True, exist_ok=True)` brings into existence. -/
def pathPrefixes : FPath → List FPath
  | [] => []
  | a :: rest => [a] :: (pathPrefixes rest).map (a :: ·)

/-- The filesystem state: the set of existing directories and the set of
existing files, each as a duplicate-free-by-use list of paths. -/
structure FS where
  dirs : List FPath
  files : List FPath
deriving Repr, DecidableEq

/-- `Path.mkdir(parents=True, exist_ok=True)`: idempotently create a
directory together with all of its ancestors. -/
def mkdirParents (fs : FS) (d : FPath) : FS :=
  { fs with dirs := fs.dirs ++ (pathPrefixes d).filter (fun p => p ∉ fs.dirs) }

/-- Creation of a file (as `logging.FileHandler` does for the log file):
idempotent on existence. -/
def createFile (fs : FS) (f : FPath) : FS :=
  { fs with files := if f ∈ fs.files then fs.files else fs.files ++ [f] }

/-- Case-sensitive suffix match, the semantics of the glob pattern
`*<pattern>` applied to a single name component on a POSIX (case-sensitive)
filesystem. -/
def suffixMatch (pattern name : String) : Bool :=
  List.isSuffixOf pattern.toList name.toList

/-- `directory.rglob(f"*{pattern}")` (workflow_utils.py line 480): every
entry — file or directory — lying strictly beneath `dir` whose name ends
with `pattern`. -/
def rglobMatches (fs : FS) (dir : FPath) (pattern : String) : List FPath :=
  fs.files.filter (fun f => isStrictPrefix dir f && suffixMatch pattern (fileName f))
    ++ fs.dirs.filter (fun d => isStrictPrefix dir d && suffixMatch pattern (fileName d))

/-- Total order used to model Python's sorting of `Path` values
(componentwise lexicographic comparison). -/
def pathLe : FPath → FPath → Bool
  | [], _ => true
  | _ :: _, [] => false
  | a :: as, b :: bs => if a = b then pathLe as bs else decide (a < b)

/-- Insertion into a sorted list of paths. -/
def insertSorted (x : FPath) : List FPath → List FPath
  | [] => [x]
  | y :: ys => if pathLe x y then x :: y :: ys else y :: insertSorted x ys

/-- Insertion sort by `pathLe`, modelling Python's `sorted` on paths. -/
def sortPaths : List FPath → List FPath
  | [] => []
  | x :: xs => insertSorted x (sortPaths xs)

/-- `FileDiscovery.find_files_by_type` (workflow_utils.py lines 453-485),
with the category's registered extension patterns passed explicitly: if the
pattern list is empty return `[]`; otherwise glob each pattern recursively
beneath `dir`, deduplicate (`set`) and sort. -/
def find_files_by_type (patterns : List String) (fs : FS) (dir : FPath) : List FPath :=
  if patterns.isEmpty then []
  else sortPaths ((patterns.map (rglobMatches fs dir)).flatten).dedup

/-- The file-pattern registry of the default workflow configuration literal
(workflow_utils.py lines 144-149).  Note that only lower-case HEIC
extensions are registered. -/
def default_file_patterns (t : String) : List String :=
  if t = "videos" then [".mp4", ".avi", ".mkv", ".mov", ".wmv", ".flv", ".webm", ".m4v"]
  else if t = "images" then [".jpg", ".jpeg", ".png", ".bmp", ".tiff", ".webp"]
  else if t = "heic" then [".heic", ".heif"]
  else if t = "descriptions" then ["image_descriptions.txt"]
  else []

/-! ## Workflow configuration and CLI models -/

/-- The valid workflow step names accepted both by the CLI validation
(workflow.py line 805) and by `run_workflow`'s step dispatch table
(workflow.py lines 149-154). -/
def available_steps : List String := ["video", "convert", "describe", "html"]

/-- The internal configuration key for each CLI step name (the dictionary
literal at workflow.py lines 560-561). -/
def step_internal_name (step : String) : String :=
  if step = "video" then "video_extraction"
  else if step = "convert" then "image_conversion"
  else if step = "describe" then "image_description"
  else if step = "html" then "html_generation"
  else step

/-- The `output_subdir` each internal step name resolves to under the default
configuration literal (workflow_utils.py lines 138-141); unknown names fall
back to the name itself (workflow_utils.py line 195). -/
def default_output_subdir (internal : String) : String :=
  if internal = "video_extraction" then "extracted_frames"
  else if internal = "image_conversion" then "converted_images"
  else if internal = "image_description" then "descriptions"
  else if internal = "html_generation" then "html_reports"
  else internal

/-- `WorkflowConfig.get_default_config` (workflow_utils.py lines 114-150)
returns `None`: the function body consists solely of a nested definition of
the same name (line 123) containing the intended configuration literal, so
the outer function falls through without a `return` statement. -/
def get_default_config_result : Option Unit := none

/-- `WorkflowConfig.load_config` (workflow_utils.py lines 86-112): the parsed
configuration when the config file exists, and otherwise the result of
`get_default_config`, which is `None`. -/
def load_config (fileContent : Option Unit) : Option Unit :=
  match fileContent with
  | some c => some c
  | none => get_default_config_result

/-- The subdirectory names hard-coded in `create_workflow_paths`
(workflow_utils.py lines 552-558). -/
def workflow_step_subdirs : List String :=
  ["extracted_frames", "converted_images", "descriptions", "html_reports", "logs"]

/-- `create_workflow_paths` (workflow_utils.py lines 533-565): eagerly create
every standard step output directory (and `logs`) under the base output
directory, regardless of which steps were requested. -/
def create_workflow_paths (fs : FS) (base : FPath) : FS :=
  workflow_step_subdirs.foldl (fun a s => mkdirParents a (base ++ [s])) fs

/-- `WorkflowLogger.__init__` with `log_to_file=True` (workflow_utils.py
lines 330-345): create the `logs` directory (with parents) under the base
output directory and create one timestamped log file in it. -/
def workflow_logger_init (fs : FS) (base : FPath) (timestamp : String) : FS :=
  let logsDir := base ++ ["logs"]
  createFile (mkdirParents fs logsDir) (logsDir ++ ["workflow_" ++ timestamp ++ ".log"])

/-- The CLI arguments relevant to the filesystem behaviour of `main`
(workflow.py lines 700-829), with `input_dir` and `output_dir` already
resolved to absolute paths (an explicit `--output-dir` is given, so no
timestamped directory name is computed from the config). -/
structure CliArgs where
  input_dir : FPath
  output_dir : FPath
  steps : List String
  dry_run : Bool
deriving Repr, DecidableEq

/-- `main` with `--dry-run` (workflow.py lines 770-829): after validating the
input directory and step names, the orchestrator is constructed — whose
`WorkflowLogger` creates the `logs` directory and a timestamped log file —
and then the dry-run branch prints the resolved settings and exits 0.
Returns the final filesystem and the process exit code. -/
def main_dry_run (fs : FS) (args : CliArgs) (timestamp : String) : FS × Nat :=
  if args.input_dir ∈ fs.dirs then
    if args.steps.all (fun s => s ∈ available_steps) then
      (workflow_logger_init fs args.output_dir timestamp, 0)
    else (fs, 1)
  else (fs, 1)

/-- `main` (workflow.py lines 770-881) when the workflow configuration file
does not exist and no `--model`/`--prompt-style` override is given:
`load_config` yields `None` (see `get_default_config_result`), argument
validation and orchestrator construction succeed, and
- with `--dry-run` the process exits 0;
- otherwise `run_workflow` creates the full output directory structure
  (workflow.py line 537) and, for a nonempty step list, the first iteration's
  `get_step_output_dir` call (line 559, outside the per-step `try`)
  dereferences the `None` configuration, raising `AttributeError`, which
  propagates to `main`'s generic handler (line 879) for exit code 1; no step
  subprocess is ever launched.
Returns the final filesystem, the exit code, and the launched step
subprocesses. -/
def main_missing_config (fs : FS) (args : CliArgs) (timestamp : String) :
    FS × Nat × List String :=
  if args.input_dir ∈ fs.dirs then
    if args.steps.all (fun s => s ∈ available_steps) then
      let fs1 := workflow_logger_init fs args.output_dir timestamp
      if args.dry_run then (fs1, 0, [])
      else
        let fs2 := create_workflow_paths fs1 args.output_dir
        match args.steps with
        | [] => (fs2, 0, [])
        | _ :: _ => (fs2, 1, [])
    else (fs, 1, [])
  else (fs, 1, [])

/-! ## Step runner models -/

/-- The observable result of one external process run via `subprocess.run`
with captured output. -/
structure ProcResult where
  returncode : Int
  stdout : String
  stderr : String
deriving Repr, DecidableEq

/-- The fields of a step's result dictionary that the orchestrator inspects:
`success`, `processed` (`step_result.get("processed", 0)` when absent) and
`error` (present exactly on failure). -/
structure StepOutcome where
  success : Bool
  processed : Nat
  error : Option String
deriving Repr, DecidableEq

/-- A JSON scalar value, enough to model the frame-extractor configuration
object. -/
inductive JVal where
  | str : String → JVal
  | num : Int → JVal
  | boolean : Bool → JVal
  | null : JVal
deriving Repr, DecidableEq

/-- A JSON object as an insertion-ordered association list, as `json.load`
produces and `json.dump` serialises. -/
abbrev JObj := List (String × JVal)

/-- Python dictionary assignment `config[k] = v`: replace the value at an
existing key in place, otherwise append the key. -/
def setKey (o : JObj) (k : String) (v : JVal) : JObj :=
  if o.any (fun p => p.1 = k) then o.map (fun p => if p.1 = k then (k, v) else p)
  else o ++ [(k, v)]

/-- Key lookup in a JSON object. -/
def lookupKey (o : JObj) (k : String) : Option JVal :=
  match o.find? (fun p => p.1 = k) with
  | some p => some p.2
  | none => none

/-- `WorkflowOrchestrator._update_frame_extractor_config` (workflow.py lines
674-697): load the frame extractor's JSON config file, set its
`output_directory` key to the step's output directory, and write the file
back in place.  Any exception — in particular a missing or unparsable config
file — is caught and merely logged as a warning, leaving the file untouched.
`content` is the config file's parsed content (`none` when the file is
missing or not valid JSON). -/
def update_frame_extractor_config (content : Option JObj) (output_dir : String) :
    Option JObj :=
  match content with
  | some o => some (setKey o "output_directory" (JVal.str output_dir))
  | none => none

/-- The result of the `extract_video_frames` step relevant to the claims: its
outcome dictionary, whether the extractor subprocess was launched, and the
content of the frame extractor's config file after the step returns. -/
structure VideoStepResult where
  outcome : StepOutcome
  launched : Bool
  config_after : Option JObj
deriving Repr, DecidableEq

/-- `WorkflowOrchestrator.extract_video_frames` (workflow.py lines 173-238):
discover video files beneath `input_dir`; with none, return
`success=True, processed=0` without touching the config or launching
anything; otherwise rewrite the frame-extractor config (see
`update_frame_extractor_config`) — which is never restored afterwards — run
the extractor, and classify by its exit status with `error` taken verbatim
from the captured stderr.  `pats` is the configuration's file-pattern
registry and `proc` the extractor process's result. -/
def extract_video_frames (pats : String → List String) (fs : FS)
    (input_dir output_dir : FPath) (config_content : Option JObj)
    (proc : ProcResult) : VideoStepResult :=
  let video_files := find_files_by_type (pats "videos") fs input_dir
  if video_files.isEmpty then
    { outcome := { success := true, processed := 0, error := none },
      launched := false, config_after := config_content }
  else
    let cfg := update_frame_extractor_config config_content
      (String.intercalate "/" output_dir)
    if proc.returncode = 0 then
      { outcome := { success := true, processed := video_files.length, error := none },
        launched := true, config_after := cfg }
    else
      { outcome := { success := false, processed := 0, error := some proc.stderr },
        launched := true, config_after := cfg }

/-- `WorkflowOrchestrator.convert_images` (workflow.py lines 240-306):
discover HEIC files beneath `input_dir`; with none, return
`success=True, processed=0` without launching the converter; otherwise run
the converter and classify strictly by its exit status, with `error` taken
verbatim from the captured stderr (even when empty).  The second component
records whether the converter subprocess was launched. -/
def convert_images (pats : String → List String) (fs : FS) (input_dir : FPath)
    (proc : ProcResult) : StepOutcome × Bool :=
  let heic_files := find_files_by_type (pats "heic") fs input_dir
  if heic_files.isEmpty then
    ({ success := true, processed := 0, error := none }, false)
  else if proc.returncode = 0 then
    ({ success := true, processed := heic_files.length, error := none }, true)
  else
    ({ success := false, processed := 0, error := some proc.stderr }, true)

/-- `dir.iterdir()` nonemptiness (`any(converted_dir.iterdir())`, workflow.py
lines 326 and 332): the directory has at least one entry — a file or a
directory strictly beneath it. -/
def dirHasEntry (fs : FS) (d : FPath) : Bool :=
  fs.files.any (fun f => isStrictPrefix d f) || fs.dirs.any (fun q => isStrictPrefix d q)

/-- The search-directory list built by `describe_images` (workflow.py lines
321-334): the original input directory, then the converted-images and
extracted-frames step output directories, each included when — after
`get_step_output_dir`'s `create=True` has created it — it has at least one
entry.  Returns the list together with the filesystem after those two
directory creations. -/
def describe_search_dirs (fs : FS) (input_dir base : FPath) : List FPath × FS :=
  let conv := base ++ ["converted_images"]
  let fs1 := mkdirParents fs conv
  let dirs1 := if dirHasEntry fs1 conv then [conv] else []
  let frames := base ++ ["extracted_frames"]
  let fs2 := mkdirParents fs1 frames
  let dirs2 := if dirHasEntry fs2 frames then [frames] else []
  ([input_dir] ++ dirs1 ++ dirs2, fs2)

/-- The result of the per-directory loop of `describe_images`: either every
launched sub-invocation succeeded (with the accumulated processed count), or
the loop stopped at the first failing one.  `launched` records the
directories for which a subprocess was launched, in order. -/
inductive DescribeLoopResult where
  | ok (total : Nat) (launched : List FPath)
  | failed (dir : FPath) (err : String) (launched : List FPath)
deriving Repr, DecidableEq

/-- The loop of `describe_images` over the search directories (workflow.py
lines 355-404): directories whose discovery finds no images are skipped; for
each remaining directory the describer subprocess is launched (`proc i` is
the result of the `i`-th launch); a zero exit status accumulates that
directory's image count, and a nonzero one returns immediately, surfacing
that directory and its captured stderr. -/
def describe_loop (proc : Nat → ProcResult) :
    List (FPath × List FPath) → Nat → Nat → List FPath → DescribeLoopResult
  | [], _, total, launched => DescribeLoopResult.ok total launched
  | (d, imgs) :: rest, i, total, launched =>
    if imgs.isEmpty then describe_loop proc rest i total launched
    else
      let r := proc i
      if r.returncode = 0 then
        describe_loop proc rest (i + 1) (total + imgs.length) (launched ++ [d])
      else
        DescribeLoopResult.failed d r.stderr (launched ++ [d])

/-- `WorkflowOrchestrator.describe_images` (workflow.py lines 308-427): build
the search directories (creating the converted/frames directories on the
way), merge the image files discovered in all of them, and return
`success=True, processed=0` with no launch when that merge is empty.
Otherwise run the per-directory loop; on a sub-invocation failure the step
fails with `Failed processing <dir>: <stderr>`.  When every sub-invocation
succeeded, the step still checks that `image_descriptions.txt` exists in the
output directory — `files_after` is the set of files existing after the
sub-invocations ran — and reports `Description file not created` as a
failure when it does not.
Returns the outcome and the directories for which a subprocess ran. -/
def describe_images (pats : String → List String) (fs : FS)
    (input_dir base output_dir : FPath) (proc : Nat → ProcResult)
    (files_after : List FPath) : StepOutcome × List FPath :=
  let sd := describe_search_dirs fs input_dir base
  let search_dirs := sd.1
  let fs2 := sd.2
  let all_image_files :=
    (search_dirs.map (fun d => find_files_by_type (pats "images") fs2 d)).flatten
  if all_image_files.isEmpty then
    ({ success := true, processed := 0, error := none }, [])
  else
    match describe_loop proc
        (search_dirs.map (fun d => (d, find_files_by_type (pats "images") fs2 d)))
        0 0 [] with
    | DescribeLoopResult.failed d err launched =>
      ({ success := false, processed := 0,
         error := some ("Failed processing " ++ String.intercalate "/" d ++ ": " ++ err) },
       launched)
    | DescribeLoopResult.ok total launched =>
      if (output_dir ++ ["image_descriptions.txt"]) ∈ files_after then
        ({ success := true, processed := total, error := none }, launched)
      else
        ({ success := false, processed := 0,
           error := some "Description file not created" }, launched)

/-! ## Workflow orchestration model -/

/-- The workflow-level aggregation fields of `run_workflow`'s result
dictionary (workflow.py lines 539-546). -/
structure StepAgg where
  success : Bool
  steps_completed : List String
  steps_failed : List String
deriving Repr, DecidableEq

/-- The evolving state of one `run_workflow` invocation: the filesystem, the
aggregation fields, the list of step-method invocations (step name together
with the input directory passed to the method), and `current_input_dir`. -/
structure RunState where
  fs : FS
  agg : StepAgg
  executed : List (String × FPath)
  current_input : FPath
deriving Repr, DecidableEq

/-- The directories a step's dispatch creates on the filesystem: line 559's
`get_step_output_dir(..., create=True)` for every valid step, and, for
`describe`, additionally the converted-images and extracted-frames
directories created inside `describe_images` (workflow.py lines 325 and
331). -/
def run_step_fs (fs : FS) (out : FPath) (step : String) : FS :=
  let fs1 := mkdirParents fs (out ++ [default_output_subdir (step_internal_name step)])
  if step = "describe" then
    mkdirParents (mkdirParents fs1 (out ++ ["converted_images"]))
      (out ++ ["extracted_frames"])
  else fs1

/-- The step loop of `run_workflow` (workflow.py lines 552-607) over the
enumerated step list, with step-execution outcomes abstracted by an oracle:
`outcome i = some b` means the `i`-th requested step's method returned a
result with `success = b`, and `outcome i = none` means it raised an
exception (caught at lines 601-607).
- A step name outside `available_steps` is appended to `steps_failed` and
  skipped — the `continue` at line 556 leaves `success` unchanged.
- A valid step first has its output directory created (line 559), is invoked
  with the original `input_dir` when it is `describe` or `convert` (lines
  572-577) and with `current_input_dir` otherwise (lines 566-571, 578-580),
  and is recorded in `steps_completed`/`steps_failed` with `success` set to
  `False` on failure or exception (lines 587-607).
- After a successful `video` or `convert` step, `current_input_dir` becomes
  that step's output directory (lines 592-594). -/
def run_workflow_loop (out : FPath) (outcome : Nat → Option Bool) (input_dir : FPath) :
    List (Nat × String) → RunState → RunState
  | [], st => st
  | (i, step) :: rest, st =>
    if step ∈ available_steps then
      let passed := if step = "describe" || step = "convert" then input_dir
                    else st.current_input
      let stepOut := out ++ [default_output_subdir (step_internal_name step)]
      let st1 : RunState :=
        { st with fs := run_step_fs st.fs out step,
                  executed := st.executed ++ [(step, passed)] }
      match outcome i with
      | some true =>
        let newInput := if step = "video" || step = "convert" then stepOut
                        else st1.current_input
        run_workflow_loop out outcome input_dir rest
          { st1 with
              agg := { st1.agg with
                         steps_completed := st1.agg.steps_completed ++ [step] },
              current_input := newInput }
      | some false =>
        run_workflow_loop out outcome input_dir rest
          { st1 with
              agg := { success := false,
                       steps_completed := st1.agg.steps_completed,
                       steps_failed := st1.agg.steps_failed ++ [step] } }
      | none =>
        run_workflow_loop out outcome input_dir rest
          { st1 with
              agg := { success := false,
                       steps_completed := st1.agg.steps_completed,
                       steps_failed := st1.agg.steps_failed ++ [step] } }
    else
      run_workflow_loop out outcome input_dir rest
        { st with
            agg := { success := st.agg.success,
                     steps_completed := st.agg.steps_completed,
                     steps_failed := st.agg.steps_failed ++ [step] } }

/-- `WorkflowOrchestrator.run_workflow` (workflow.py lines 513-618) with a
present configuration using the default output layout: create the full
workflow directory structure eagerly (line 537), then run the step loop
starting from `success = True`, empty completed/failed lists and
`current_input_dir = input_dir` (line 549). -/
def run_workflow (fs : FS) (input_dir out : FPath) (steps : List String)
    (outcome : Nat → Option Bool) : RunState :=
  run_workflow_loop out outcome input_dir steps.enum
    { fs := create_workflow_paths fs out,
      agg := { success := true, steps_completed := [], steps_failed := [] },
      executed := [],
      current_input := input_dir }

/-- The CLI's exit code after a completed `run_workflow`
(workflow.py line 874): `sys.exit(0 if results["success"] else 1)`. -/
def cli_exit_code (success : Bool) : Nat :=
  if success then 0 else 1

/-- The result classification of the HTML renderer subprocess inside
`generate_html` (workflow.py lines 496-507): a zero exit status reports
`success=True, processed=1`; otherwise `success=False` with `error` taken
verbatim from the captured stderr. -/
def run_html_renderer (proc : ProcResult) : StepOutcome :=
  if proc.returncode = 0 then { success := true, processed := 1, error := none }
  else { success := false, processed := 0, error := some proc.stderr }

/-- The description-file discovery chain of `generate_html` when no usable
file was supplied explicitly (workflow.py lines 447-463): discover
description files in the input directory; failing that, in the standard
descriptions output directory — which `get_step_output_dir`'s `create=True`
has just created, making its `exists()` test vacuous; failing that, fall
back to the in-memory file recorded by a prior describe step
(`describe_result_file`).  If nothing is found, return
`success=True, processed=0` without launching the renderer; otherwise run
and classify it (see `run_html_renderer`).  The second component records
whether the renderer subprocess was launched.  (Which file of the chain is
rendered, the creation of `output_dir` at line 472 and the html file path
do not affect classification or launching and are not tracked.) -/
def generate_html_discover (pats : String → List String) (fs : FS)
    (input_dir base : FPath) (describe_result_file : Option FPath)
    (proc : ProcResult) : StepOutcome × Bool :=
  let desc_files := find_files_by_type (pats "descriptions") fs input_dir
  let descriptions_dir := base ++ ["descriptions"]
  let fs1 := mkdirParents fs descriptions_dir
  let desc_files2 :=
    if desc_files.isEmpty
    then find_files_by_type (pats "descriptions") fs1 descriptions_dir
    else desc_files
  if desc_files2.isEmpty then
    match describe_result_file with
    | some _ => (run_html_renderer proc, true)
    | none => ({ success := true, processed := 0, error := none }, false)
  else (run_html_renderer proc, true)

/-- `WorkflowOrchestrator.generate_html` (workflow.py lines 429-511): when a
description file is supplied explicitly and exists, render it directly;
otherwise resolve one through the fallback chain of
`generate_html_discover`.  Whenever the renderer subprocess is launched, its
result is classified strictly by exit status with verbatim stderr
(`run_html_renderer`); when no description file is found anywhere, the step
is a successful no-op. -/
def generate_html (pats : String → List String) (fs : FS)
    (input_dir base : FPath) (description_file : Option FPath)
    (describe_result_file : Option FPath) (proc : ProcResult) :
    StepOutcome × Bool :=
  match description_file with
  | some f =>
    if f ∈ fs.files then (run_html_renderer proc, true)
    else generate_html_discover pats fs input_dir base describe_result_file proc
  | none => generate_html_discover pats fs input_dir base describe_result_file proc

/-! ## Supporting lemmas -/

theorem mem_insertSorted {x y : FPath} {l : List FPath} :
    x ∈ insertSorted y l ↔ x = y ∨ x ∈ l := by
  induction l with
  | nil => simp [insertSorted]
  | cons z zs ih =>
    by_cases h : pathLe y z = true
    · simp [insertSorted, h]
    · simp only [insertSorted, if_neg h, List.mem_cons, ih]
      tauto

theorem mem_sortPaths {x : FPath} {l : List FPath} :
    x ∈ sortPaths l ↔ x ∈ l := by
  induction l with
  | nil => simp [sortPaths]
  | cons y ys ih => simp [sortPaths, mem_insertSorted, ih]

theorem mem_rglobMatches {fs : FS} {dir : FPath} {p : String} {f : FPath} :
    f ∈ rglobMatches fs dir p ↔
      (f ∈ fs.files ∨ f ∈ fs.dirs) ∧ isStrictPrefix dir f = true ∧
        suffixMatch p (fileName f) = true := by
  simp only [rglobMatches, List.mem_append, List.mem_filter, Bool.and_eq_true]
  tauto

theorem mem_find_files_by_type {patterns : List String} {fs : FS} {dir : FPath}
    {f : FPath} :
    f ∈ find_files_by_type patterns fs dir ↔
      patterns ≠ [] ∧ ∃ p ∈ patterns, f ∈ rglobMatches fs dir p := by
  unfold find_files_by_type
  by_cases h : patterns.isEmpty
  · simp [h, List.isEmpty_iff.mp h]
  · rw [if_neg h]
    simp only [mem_sortPaths, List.mem_dedup, List.mem_flatten, List.mem_map]
    constructor
    · rintro ⟨l, ⟨p, hp, rfl⟩, hf⟩
      exact ⟨by simpa [List.isEmpty_iff] using h, p, hp, hf⟩
    · rintro ⟨-, p, hp, hf⟩
      exact ⟨rglobMatches fs dir p, ⟨p, hp, rfl⟩, hf⟩

theorem mem_pathPrefixes_length {p d : FPath} (h : p ∈ pathPrefixes d) :
    p.length ≤ d.length ∧ p ≠ [] := by
  induction d generalizing p with
  | nil => simp [pathPrefixes] at h
  | cons a rest ih =>
    simp only [pathPrefixes, List.mem_cons, List.mem_map] at h
    rcases h with rfl | ⟨q, hq, rfl⟩
    · simp
    · have := ih hq
      constructor
      · simpa using Nat.succ_le_succ this.1
      · simp

theorem self_mem_pathPrefixes {d : FPath} (h : d ≠ []) : d ∈ pathPrefixes d := by
  induction d with
  | nil => simp at h
  | cons a rest ih =>
    simp only [pathPrefixes, List.mem_cons, List.mem_map]
    rcases rest with _ | ⟨b, bs⟩
    · left; rfl
    · right
      exact ⟨b :: bs, ih (by simp), rfl⟩

theorem mem_dirs_mkdirParents {fs : FS} {d x : FPath} :
    x ∈ (mkdirParents fs d).dirs ↔ x ∈ fs.dirs ∨ x ∈ pathPrefixes d := by
  simp only [mkdirParents, List.mem_append, List.mem_filter, decide_eq_true_eq]
  by_cases h : x ∈ fs.dirs <;> simp [h]

theorem files_mkdirParents {fs : FS} {d : FPath} :
    (mkdirParents fs d).files = fs.files := rfl

theorem mem_files_createFile {fs : FS} {f x : FPath} :
    x ∈ (createFile fs f).files ↔ x ∈ fs.files ∨ x = f := by
  simp only [createFile]
  by_cases h : f ∈ fs.files
  · simp only [if_pos h]
    constructor
    · exact Or.inl
    · rintro (hx | rfl) <;> assumption
  · simp [if_neg h]

theorem dirs_createFile {fs : FS} {f : FPath} :
    (createFile fs f).dirs = fs.dirs := rfl

theorem isStrictPrefix_length {p q : FPath} (h : isStrictPrefix p q = true) :
    p.length < q.length := by
  simp only [isStrictPrefix, Bool.and_eq_true, decide_eq_true_eq] at h
  exact h.2

/-- Creating a directory `d` no deeper than `c` cannot add an entry beneath
`c`: every directory `mkdir(parents=True)` adds is a prefix of `d`, hence at
most as long as `d`. -/
theorem dirHasEntry_mkdirParents {fs : FS} {d c : FPath}
    (h : d.length ≤ c.length) :
    dirHasEntry (mkdirParents fs d) c = dirHasEntry fs c := by
  simp only [dirHasEntry, files_mkdirParents]
  congr 1
  simp only [mkdirParents, List.any_append]
  have : ((pathPrefixes d).filter (fun p => p ∉ fs.dirs)).any
      (fun q => isStrictPrefix c q) = false := by
    rw [List.any_eq_false]
    intro q hq
    have hq2 := mem_pathPrefixes_length (List.mem_of_mem_filter hq)
    intro hcontra
    have := isStrictPrefix_length hcontra
    omega
  rw [this, Bool.or_false]

theorem dirs_subset_create_workflow_paths {fs : FS} {base x : FPath}
    (h : x ∈ fs.dirs) : x ∈ (create_workflow_paths fs base).dirs := by
  simp only [create_workflow_paths, workflow_step_subdirs, List.foldl]
  simp only [mem_dirs_mkdirParents]
  tauto

theorem files_create_workflow_paths {fs : FS} {base : FPath} :
    (create_workflow_paths fs base).files = fs.files := by
  simp only [create_workflow_paths, workflow_step_subdirs, List.foldl,
    files_mkdirParents]

theorem subdir_mem_create_workflow_paths {fs : FS} {base : FPath} {s : String}
    (h : s ∈ workflow_step_subdirs) :
    (base ++ [s]) ∈ (create_workflow_paths fs base).dirs := by
  have hself : ∀ t : String, (base ++ [t]) ∈ pathPrefixes (base ++ [t]) := by
    intro t
    exact self_mem_pathPrefixes (by simp)
  simp only [workflow_step_subdirs, List.mem_cons, List.not_mem_nil, or_false] at h
  simp only [create_workflow_paths, workflow_step_subdirs, List.foldl,
    mem_dirs_mkdirParents]
  rcases h with rfl | rfl | rfl | rfl | rfl <;> simp [hself]

theorem lookupKey_setKey_same {o : JObj} {k : String} {v : JVal} :
    lookupKey (setKey o k v) k = some v := by
  by_cases h : o.any (fun p => p.1 = k)
  · simp only [setKey, if_pos h, lookupKey]
    induction o with
    | nil => simp at h
    | cons q qs ih =>
      by_cases hq : q.1 = k
      · rw [List.map_cons, if_pos hq,
          List.find?_cons_of_pos _ (by simp)]
      · simp only [List.any_cons, Bool.or_eq_true, decide_eq_true_eq] at h
        rcases h with h | h
        · exact absurd h hq
        · rw [List.map_cons, if_neg hq,
            List.find?_cons_of_neg _ (by simp only [decide_eq_true_eq]; exact hq)]
          exact ih h
  · simp only [setKey, if_neg h, lookupKey]
    rw [List.find?_append]
    have hnone : o.find? (fun p => p.1 = k) = none := by
      rw [List.find?_eq_none]
      intro q hq
      simp only [decide_eq_true_eq]
      intro hcontra
      exact h (List.any_eq_true.mpr ⟨q, hq, by simpa using hcontra⟩)
    rw [hnone, Option.none_or, List.find?_cons_of_pos _ (by simp)]

theorem lookupKey_setKey_other {o : JObj} {k k' : String} {v : JVal}
    (h : k' ≠ k) : lookupKey (setKey o k v) k' = lookupKey o k' := by
  by_cases hm : o.any (fun p => p.1 = k)
  · simp only [setKey, if_pos hm, lookupKey]
    clear hm
    induction o with
    | nil => simp
    | cons q qs ih =>
      by_cases hq : q.1 = k
      · have hne : ¬ q.1 = k' := fun hc => h (by rw [← hc]; exact hq)
        rw [List.map_cons, if_pos hq,
          List.find?_cons_of_neg _
            (by simp only [decide_eq_true_eq]; exact fun hc => h hc.symm),
          List.find?_cons_of_neg _ (by simp only [decide_eq_true_eq]; exact hne)]
        exact ih
      · by_cases hq' : q.1 = k'
        · rw [List.map_cons, if_neg hq,
            List.find?_cons_of_pos _ (by simp only [decide_eq_true_eq]; exact hq'),
            List.find?_cons_of_pos _ (by simp only [decide_eq_true_eq]; exact hq')]
        · rw [List.map_cons, if_neg hq,
            List.find?_cons_of_neg _ (by simp only [decide_eq_true_eq]; exact hq'),
            List.find?_cons_of_neg _ (by simp only [decide_eq_true_eq]; exact hq')]
          exact ih
  · simp only [setKey, if_neg hm, lookupKey]
    rw [List.find?_append]
    have hone : ([(k, v)] : JObj).find? (fun p => p.1 = k') = none := by
      rw [List.find?_eq_none]
      intro q hq
      simp only [List.mem_singleton] at hq
      subst hq
      simpa using fun hc => h hc.symm
    rw [hone]
    cases hfind : o.find? (fun p => decide (p.1 = k')) <;> simp [hfind]

/-- A requested step leaves `run_workflow`'s overall `success` flag intact
exactly when it is an unknown name (skipped by the `continue` at line 556) or
its execution returned `success=True`. -/
def step_keeps_success (outcome : Nat → Option Bool) (p : Nat × String) : Bool :=
  !(decide (p.2 ∈ available_steps)) || (outcome p.1 == some true)

/-- A requested step is appended to `steps_failed` exactly when it is an
unknown name, or a known one whose execution did not return `success=True`
(returned failure or raised). -/
def step_recorded_failed (outcome : Nat → Option Bool) (p : Nat × String) : Bool :=
  !(decide (p.2 ∈ available_steps) && (outcome p.1 == some true))

theorem run_workflow_loop_success (out : FPath) (oc : Nat → Option Bool)
    (inp : FPath) (l : List (Nat × String)) (st : RunState) :
    (run_workflow_loop out oc inp l st).agg.success =
      (st.agg.success && l.all (step_keeps_success oc)) := by
  induction l generalizing st with
  | nil => simp [run_workflow_loop]
  | cons p rest ih =>
    obtain ⟨i, step⟩ := p
    by_cases hv : step ∈ available_steps
    · rcases hoc : oc i with _ | b
      · simp only [run_workflow_loop, if_pos hv, hoc]
        rw [ih]
        simp [step_keeps_success, hv, hoc]
      · cases b
        · simp only [run_workflow_loop, if_pos hv, hoc]
          rw [ih]
          simp [step_keeps_success, hv, hoc]
        · simp only [run_workflow_loop, if_pos hv, hoc]
          rw [ih]
          simp [step_keeps_success, hv, hoc]
    · simp only [run_workflow_loop, if_neg hv]
      rw [ih]
      simp [step_keeps_success, hv]

theorem run_workflow_loop_failed (out : FPath) (oc : Nat → Option Bool)
    (inp : FPath) (l : List (Nat × String)) (st : RunState) :
    (run_workflow_loop out oc inp l st).agg.steps_failed =
      st.agg.steps_failed ++ (l.filter (step_recorded_failed oc)).map Prod.snd := by
  induction l generalizing st with
  | nil => simp [run_workflow_loop]
  | cons p rest ih =>
    obtain ⟨i, step⟩ := p
    by_cases hv : step ∈ available_steps
    · rcases hoc : oc i with _ | b
      · simp only [run_workflow_loop, if_pos hv, hoc]
        rw [ih]
        simp [step_recorded_failed, hv, hoc]
      · cases b
        · simp only [run_workflow_loop, if_pos hv, hoc]
          rw [ih]
          simp [step_recorded_failed, hv, hoc]
        · simp only [run_workflow_loop, if_pos hv, hoc]
          rw [ih]
          simp [step_recorded_failed, hv, hoc]
    · simp only [run_workflow_loop, if_neg hv]
      rw [ih]
      simp [step_recorded_failed, hv]

theorem run_step_fs_dirs_mono {fs : FS} {out : FPath} {step : String} {x : FPath}
    (h : x ∈ fs.dirs) : x ∈ (run_step_fs fs out step).dirs := by
  unfold run_step_fs
  by_cases hd : step = "describe" <;>
    simp [hd, mem_dirs_mkdirParents, h]

theorem run_step_fs_files {fs : FS} {out : FPath} {step : String} :
    (run_step_fs fs out step).files = fs.files := by
  unfold run_step_fs
  by_cases hd : step = "describe" <;> simp [hd, files_mkdirParents]

theorem stepdir_mem_run_step_fs {fs : FS} {out : FPath} {step : String} :
    (out ++ [default_output_subdir (step_internal_name step)]) ∈
      (run_step_fs fs out step).dirs := by
  unfold run_step_fs
  by_cases hd : step = "describe"
  · subst hd
    rw [if_pos rfl]
    simp only [mem_dirs_mkdirParents]
    refine Or.inl (Or.inl (Or.inr (self_mem_pathPrefixes ?_)))
    simp
  · rw [if_neg hd]
    simp only [mem_dirs_mkdirParents]
    refine Or.inr (self_mem_pathPrefixes ?_)
    simp

theorem run_workflow_loop_dirs_mono (out : FPath) (oc : Nat → Option Bool)
    (inp : FPath) (l : List (Nat × String)) (st : RunState) {x : FPath}
    (h : x ∈ st.fs.dirs) :
    x ∈ (run_workflow_loop out oc inp l st).fs.dirs := by
  induction l generalizing st with
  | nil => simpa [run_workflow_loop] using h
  | cons p rest ih =>
    obtain ⟨i, step⟩ := p
    by_cases hv : step ∈ available_steps
    · rcases hoc : oc i with _ | b
      · simp only [run_workflow_loop, if_pos hv, hoc]
        exact ih _ (run_step_fs_dirs_mono h)
      · cases b <;>
          · simp only [run_workflow_loop, if_pos hv, hoc]
            exact ih _ (run_step_fs_dirs_mono h)
    · simp only [run_workflow_loop, if_neg hv]
      exact ih _ h

theorem run_workflow_loop_files (out : FPath) (oc : Nat → Option Bool)
    (inp : FPath) (l : List (Nat × String)) (st : RunState) :
    (run_workflow_loop out oc inp l st).fs.files = st.fs.files := by
  induction l generalizing st with
  | nil => simp [run_workflow_loop]
  | cons p rest ih =>
    obtain ⟨i, step⟩ := p
    by_cases hv : step ∈ available_steps
    · rcases hoc : oc i with _ | b
      · simp only [run_workflow_loop, if_pos hv, hoc]
        rw [ih]
        exact run_step_fs_files
      · cases b <;>
          · simp only [run_workflow_loop, if_pos hv, hoc]
            rw [ih]
            exact run_step_fs_files
    · simp only [run_workflow_loop, if_neg hv]
      exact ih _

theorem run_workflow_loop_describe_input (out : FPath) (oc : Nat → Option Bool)
    (inp : FPath) (l : List (Nat × String)) (st : RunState)
    (hst : ∀ q ∈ st.executed, q.1 = "describe" → q.2 = inp) :
    ∀ q ∈ (run_workflow_loop out oc inp l st).executed,
      q.1 = "describe" → q.2 = inp := by
  induction l generalizing st with
  | nil => simpa [run_workflow_loop] using hst
  | cons p rest ih =>
    obtain ⟨i, step⟩ := p
    have hnew : ∀ q ∈ st.executed ++
        [(step, if step = "describe" || step = "convert" then inp
                else st.current_input)],
        q.1 = "describe" → q.2 = inp := by
      intro q hq hq1
      rcases List.mem_append.mp hq with hq | hq
      · exact hst q hq hq1
      · simp only [List.mem_singleton] at hq
        subst hq
        simp only at hq1
        simp [hq1]
    by_cases hv : step ∈ available_steps
    · rcases hoc : oc i with _ | b
      · simp only [run_workflow_loop, if_pos hv, hoc]
        exact ih _ hnew
      · cases b <;>
          · simp only [run_workflow_loop, if_pos hv, hoc]
            exact ih _ hnew
    · simp only [run_workflow_loop, if_neg hv]
      exact ih _ hst

theorem run_workflow_loop_executed_dirs (out : FPath) (oc : Nat → Option Bool)
    (inp : FPath) (l : List (Nat × String)) (st : RunState)
    (hst : ∀ q ∈ st.executed,
      (out ++ [default_output_subdir (step_internal_name q.1)]) ∈ st.fs.dirs) :
    ∀ q ∈ (run_workflow_loop out oc inp l st).executed,
      (out ++ [default_output_subdir (step_internal_name q.1)]) ∈
        (run_workflow_loop out oc inp l st).fs.dirs := by
  induction l generalizing st with
  | nil => simpa [run_workflow_loop] using hst
  | cons p rest ih =>
    obtain ⟨i, step⟩ := p
    have hnew : ∀ q ∈ st.executed ++
        [(step, if step = "describe" || step = "convert" then inp
                else st.current_input)],
        (out ++ [default_output_subdir (step_internal_name q.1)]) ∈
          (run_step_fs st.fs out step).dirs := by
      intro q hq
      rcases List.mem_append.mp hq with hq | hq
      · exact run_step_fs_dirs_mono (hst q hq)
      · simp only [List.mem_singleton] at hq
        subst hq
        exact stepdir_mem_run_step_fs
    by_cases hv : step ∈ available_steps
    · rcases hoc : oc i with _ | b
      · simp only [run_workflow_loop, if_pos hv, hoc]
        exact ih _ hnew
      · cases b <;>
          · simp only [run_workflow_loop, if_pos hv, hoc]
            exact ih _ hnew
    · simp only [run_workflow_loop, if_neg hv]
      exact ih _ hst

theorem describe_loop_all_ok (proc : Nat → ProcResult)
    (h : ∀ i, (proc i).returncode = 0) :
    ∀ (l : List (FPath × List FPath)) (i total : Nat) (launched : List FPath),
      describe_loop proc l i total launched =
        DescribeLoopResult.ok
          (total + ((l.filter (fun p => !p.2.isEmpty)).map (fun p => p.2.length)).sum)
          (launched ++ (l.filter (fun p => !p.2.isEmpty)).map Prod.fst) := by
  intro l
  induction l with
  | nil => intro i total launched; simp [describe_loop]
  | cons q rest ih =>
    intro i total launched
    obtain ⟨d, imgs⟩ := q
    by_cases he : imgs.isEmpty
    · simp only [describe_loop, if_pos he]
      rw [ih]
      simp [he]
    · simp only [describe_loop, if_neg he, if_pos (h i)]
      rw [ih]
      simp only [List.filter_cons]
      rw [if_pos (by simpa using he)]
      simp [Nat.add_assoc]

theorem describe_loop_fail_fast (proc : Nat → ProcResult) :
    ∀ (pre : List (FPath × List FPath)) (d : FPath × List FPath)
      (post : List (FPath × List FPath)) (i total : Nat) (launched : List FPath),
      (∀ p ∈ pre, p.2 ≠ []) →
      (∀ k, k < pre.length → (proc (i + k)).returncode = 0) →
      d.2 ≠ [] →
      (proc (i + pre.length)).returncode ≠ 0 →
      describe_loop proc (pre ++ d :: post) i total launched =
        DescribeLoopResult.failed d.1 (proc (i + pre.length)).stderr
          (launched ++ pre.map Prod.fst ++ [d.1]) := by
  intro pre
  induction pre with
  | nil =>
    intro d post i total launched _ _ hd hfail
    obtain ⟨dd, imgs⟩ := d
    have hne : ¬ imgs.isEmpty = true := by
      simp only [List.isEmpty_iff]
      exact hd
    simp only [List.length_nil, Nat.add_zero] at hfail
    simp only [List.nil_append, describe_loop]
    rw [if_neg hne, if_neg hfail]
    simp
  | cons q pre ih =>
    intro d post i total launched hpre hok hd hfail
    obtain ⟨dq, imgsq⟩ := q
    have hq : imgsq ≠ [] := hpre (dq, imgsq) (List.mem_cons_self _ _)
    have hne : ¬ imgsq.isEmpty = true := by
      simp only [List.isEmpty_iff]
      exact hq
    have h0 : (proc i).returncode = 0 := by
      have := hok 0 (by simp)
      simpa using this
    have hpre2 : ∀ p ∈ pre, p.2 ≠ [] :=
      fun p hp => hpre p (List.mem_cons_of_mem _ hp)
    simp only [List.cons_append, describe_loop]
    rw [if_neg hne, if_pos h0]
    have hshift : ∀ k, k < pre.length → (proc (i + 1 + k)).returncode = 0 := by
      intro k hk
      have := hok (k + 1) (by simpa using Nat.succ_lt_succ hk)
      have harith : i + (k + 1) = i + 1 + k := by omega
      rwa [harith] at this
    have hfail2 : (proc (i + 1 + pre.length)).returncode ≠ 0 := by
      have harith : i + ((dq, imgsq) :: pre).length = i + 1 + pre.length := by
        simp only [List.length_cons]
        omega
      rwa [harith] at hfail
    simp only [List.append_eq]
    rw [ih d post (i + 1) (total + imgsq.length) (launched ++ [dq]) hpre2 hshift hd hfail2]
    have harith : i + ((dq, imgsq) :: pre).length = i + 1 + pre.length := by
      simp only [List.length_cons]
      omega
    rw [harith]
    simp

theorem filter_map_pair_fst {α β : Type} (xs : List α) (g : α → List β) :
    (((xs.map (fun d => (d, g d))).filter (fun p => !p.2.isEmpty)).map Prod.fst) =
      xs.filter (fun d => !(g d).isEmpty) := by
  induction xs with
  | nil => simp
  | cons x rest ih =>
    simp only [List.map_cons, List.filter_cons]
    by_cases hx : (g x).isEmpty
    · simp [hx, ih]
    · simp [hx, ih]

/-- Well-formedness of a filesystem snapshot: every nonempty proper prefix of
an existing file or directory exists as a directory.  Stated over the finite
prefix lists so that it is decidable on concrete snapshots. -/
def FS.wf (fs : FS) : Prop :=
  (∀ f ∈ fs.files, ∀ p ∈ pathPrefixes f, p.length < f.length → p ∈ fs.dirs) ∧
  (∀ d ∈ fs.dirs, ∀ p ∈ pathPrefixes d, p.length < d.length → p ∈ fs.dirs)

theorem mem_pathPrefixes_of_strictPrefix {d e : FPath} (hd : d ≠ [])
    (h : isStrictPrefix d e = true) : d ∈ pathPrefixes e := by
  simp only [isStrictPrefix, Bool.and_eq_true, decide_eq_true_eq] at h
  obtain ⟨hpre, hlen⟩ := h
  induction d generalizing e with
  | nil => exact absurd rfl hd
  | cons a as ih =>
    cases e with
    | nil => simp at hlen
    | cons b bs =>
      simp only [isPrefixPath] at hpre
      by_cases hab : a = b
      · rw [if_pos hab] at hpre
        subst hab
        rcases as with _ | ⟨c, cs⟩
        · simp [pathPrefixes]
        · have hmem : (c :: cs) ∈ pathPrefixes bs := by
            apply ih (by simp)
            · exact hpre
            · simpa using Nat.lt_of_succ_lt_succ hlen
          simp only [pathPrefixes, List.mem_cons, List.mem_map]
          exact Or.inr ⟨c :: cs, hmem, rfl⟩
      · rw [if_neg hab] at hpre
        cases hpre

theorem mem_dirs_of_dirHasEntry {fs : FS} (hwf : fs.wf) {d : FPath}
    (hd : d ≠ []) (h : dirHasEntry fs d = true) : d ∈ fs.dirs := by
  simp only [dirHasEntry, Bool.or_eq_true, List.any_eq_true] at h
  rcases h with ⟨f, hf, hp⟩ | ⟨q, hq, hp⟩
  · exact hwf.1 f hf d (mem_pathPrefixes_of_strictPrefix hd hp)
      (isStrictPrefix_length hp)
  · exact hwf.2 q hq d (mem_pathPrefixes_of_strictPrefix hd hp)
      (isStrictPrefix_length hp)

theorem describe_search_dirs_spec (fs : FS) (input base : FPath) (hwf : fs.wf) :
    (describe_search_dirs fs input base).1 =
      [input]
      ++ (if (base ++ ["converted_images"]) ∈ fs.dirs ∧
             dirHasEntry fs (base ++ ["converted_images"]) = true
          then [base ++ ["converted_images"]] else [])
      ++ (if (base ++ ["extracted_frames"]) ∈ fs.dirs ∧
             dirHasEntry fs (base ++ ["extracted_frames"]) = true
          then [base ++ ["extracted_frames"]] else []) := by
  unfold describe_search_dirs
  have h1 : dirHasEntry (mkdirParents fs (base ++ ["converted_images"]))
      (base ++ ["converted_images"]) = dirHasEntry fs (base ++ ["converted_images"]) :=
    dirHasEntry_mkdirParents (by simp)
  have h2 : dirHasEntry
      (mkdirParents (mkdirParents fs (base ++ ["converted_images"]))
        (base ++ ["extracted_frames"]))
      (base ++ ["extracted_frames"]) = dirHasEntry fs (base ++ ["extracted_frames"]) := by
    rw [dirHasEntry_mkdirParents (by simp), dirHasEntry_mkdirParents (by simp)]
  simp only [h1, h2]
  by_cases hc : dirHasEntry fs (base ++ ["converted_images"]) = true
  all_goals by_cases hf : dirHasEntry fs (base ++ ["extracted_frames"]) = true
  · have hcc : (base ++ ["converted_images"]) ∈ fs.dirs ∧
        dirHasEntry fs (base ++ ["converted_images"]) = true :=
      ⟨mem_dirs_of_dirHasEntry hwf (by simp) hc, hc⟩
    have hff : (base ++ ["extracted_frames"]) ∈ fs.dirs ∧
        dirHasEntry fs (base ++ ["extracted_frames"]) = true :=
      ⟨mem_dirs_of_dirHasEntry hwf (by simp) hf, hf⟩
    rw [if_pos hc, if_pos hf, if_pos hcc, if_pos hff]
  · have hcc : (base ++ ["converted_images"]) ∈ fs.dirs ∧
        dirHasEntry fs (base ++ ["converted_images"]) = true :=
      ⟨mem_dirs_of_dirHasEntry hwf (by simp) hc, hc⟩
    have hff : ¬ ((base ++ ["extracted_frames"]) ∈ fs.dirs ∧
        dirHasEntry fs (base ++ ["extracted_frames"]) = true) :=
      fun hcontra => hf hcontra.2
    rw [if_pos hc, if_neg hf, if_pos hcc, if_neg hff]
  · have hcc : ¬ ((base ++ ["converted_images"]) ∈ fs.dirs ∧
        dirHasEntry fs (base ++ ["converted_images"]) = true) :=
      fun hcontra => hc hcontra.2
    have hff : (base ++ ["extracted_frames"]) ∈ fs.dirs ∧
        dirHasEntry fs (base ++ ["extracted_frames"]) = true :=
      ⟨mem_dirs_of_dirHasEntry hwf (by simp) hf, hf⟩
    rw [if_neg hc, if_pos hf, if_neg hcc, if_pos hff]
  · have hcc : ¬ ((base ++ ["converted_images"]) ∈ fs.dirs ∧
        dirHasEntry fs (base ++ ["converted_images"]) = true) :=
      fun hcontra => hc hcontra.2
    have hff : ¬ ((base ++ ["extracted_frames"]) ∈ fs.dirs ∧
        dirHasEntry fs (base ++ ["extracted_frames"]) = true) :=
      fun hcontra => hf hcontra.2
    rw [if_neg hc, if_neg hf, if_neg hcc, if_neg hff]

theorem snd_mem_of_mem_enumFrom {α : Type} {p : Nat × α} :
    ∀ {n : Nat} {l : List α}, p ∈ List.enumFrom n l → p.2 ∈ l := by
  intro n l
  induction l generalizing n with
  | nil => simp [List.enumFrom]
  | cons x rest ih =>
    intro h
    simp only [List.enumFrom, List.mem_cons] at h
    rcases h with rfl | h
    · simp
    · exact List.mem_cons_of_mem _ (ih h)

theorem generate_html_discover_cases (pats : String → List String) (fs : FS)
    (input_dir base : FPath) (describe_result_file : Option FPath)
    (proc : ProcResult) :
    generate_html_discover pats fs input_dir base describe_result_file proc =
      (run_html_renderer proc, true) ∨
    generate_html_discover pats fs input_dir base describe_result_file proc =
      ({ success := true, processed := 0, error := none }, false) := by
  simp only [generate_html_discover]
  split
  · split
    · cases describe_result_file
      · right
        rfl
      · left
        rfl
    · left
      rfl
  · left
    rfl

theorem generate_html_cases (pats : String → List String) (fs : FS)
    (input_dir base : FPath)
    (description_file describe_result_file : Option FPath)
    (proc : ProcResult) :
    generate_html pats fs input_dir base description_file
        describe_result_file proc = (run_html_renderer proc, true) ∨
    generate_html pats fs input_dir base description_file
        describe_result_file proc =
      ({ success := true, processed := 0, error := none }, false) := by
  cases description_file with
  | none =>
    exact generate_html_discover_cases pats fs input_dir base
      describe_result_file proc
  | some f =>
    simp only [generate_html]
    by_cases hf : f ∈ fs.files
    · rw [if_pos hf]
      left
      rfl
    · rw [if_neg hf]
      exact generate_html_discover_cases pats fs input_dir base
        describe_result_file proc

/-! ## Claim theorems -/

/-- C1 counterexample: `run_workflow` invoked with the step list `["bogus"]`
(and every execution succeeding) returns `success = True` while
`steps_failed = ["bogus"]` is nonempty — the unknown-step branch at
workflow.py lines 553-556 appends to `steps_failed` but does not clear the
overall `success` flag, so "success is False whenever steps_failed is
non-empty" fails as stated. -/
theorem C1_counterexample :
    (run_workflow { dirs := [["media"]], files := [] } ["media"] ["out"]
        ["bogus"] (fun _ => some true)).agg.success = true ∧
    (run_workflow { dirs := [["media"]], files := [] } ["media"] ["out"]
        ["bogus"] (fun _ => some true)).agg.steps_failed = ["bogus"] := by
  decide

/-- C1 (amended): for every step list drawn from the valid set
`{video, convert, describe, html}` and every outcome of their executions,
`run_workflow`'s `success` is `True` iff every requested step's execution
returned `success=True`; `success` is `False` iff `steps_failed` is
nonempty; and the CLI exit code is 0 iff `success` is `True`.  (An invalid
step name — rejected by the CLI before `run_workflow` is reached — is
appended to `steps_failed` without affecting `success`, so the equivalence
holds only on valid step lists.) -/
theorem C1_run_workflow_success_iff (fs : FS) (input out : FPath)
    (steps : List String) (outcome : Nat → Option Bool)
    (hvalid : ∀ s ∈ steps, s ∈ available_steps) :
    ((run_workflow fs input out steps outcome).agg.success = true ↔
      ∀ p ∈ steps.enum, outcome p.1 = some true) ∧
    ((run_workflow fs input out steps outcome).agg.success = false ↔
      (run_workflow fs input out steps outcome).agg.steps_failed ≠ []) ∧
    (cli_exit_code (run_workflow fs input out steps outcome).agg.success = 0 ↔
      (run_workflow fs input out steps outcome).agg.success = true) := by
  have hmem : ∀ p ∈ steps.enum, p.2 ∈ available_steps := fun p hp =>
    hvalid p.2 (snd_mem_of_mem_enumFrom (by simpa [List.enum] using hp))
  have hsucc : (run_workflow fs input out steps outcome).agg.success =
      (steps.enum).all (step_keeps_success outcome) := by
    unfold run_workflow
    rw [run_workflow_loop_success]
    simp
  have hfail : (run_workflow fs input out steps outcome).agg.steps_failed =
      ((steps.enum).filter (step_recorded_failed outcome)).map Prod.snd := by
    unfold run_workflow
    rw [run_workflow_loop_failed]
    simp
  refine ⟨?_, ?_, ?_⟩
  · rw [hsucc, List.all_eq_true]
    constructor
    · intro h p hp
      have h2 := h p hp
      simp only [step_keeps_success, hmem p hp, decide_True, Bool.not_true,
        Bool.false_or, beq_iff_eq] at h2
      exact h2
    · intro h p hp
      simp [step_keeps_success, hmem p hp, h p hp]
  · rw [hsucc, hfail]
    constructor
    · intro h hnil
      rw [List.map_eq_nil_iff, List.filter_eq_nil_iff] at hnil
      have hall : (steps.enum).all (step_keeps_success outcome) = true := by
        rw [List.all_eq_true]
        intro p hp
        have h3 := hnil p hp
        simp only [step_recorded_failed, Bool.not_eq_true', Bool.not_eq_false] at h3
        simp only [step_keeps_success, hmem p hp, decide_True, Bool.not_true,
          Bool.false_or]
        simpa [hmem p hp] using h3
      rw [hall] at h
      cases h
    · intro h
      by_contra hcontra
      have hall : (steps.enum).all (step_keeps_success outcome) = true := by
        cases hx : (steps.enum).all (step_keeps_success outcome)
        · exact absurd hx hcontra
        · rfl
      apply h
      rw [List.map_eq_nil_iff, List.filter_eq_nil_iff]
      intro p hp
      rw [List.all_eq_true] at hall
      have h4 := hall p hp
      simp only [step_keeps_success, hmem p hp, decide_True, Bool.not_true,
        Bool.false_or] at h4
      simp [step_recorded_failed, hmem p hp, h4]
  · cases hx : (run_workflow fs input out steps outcome).agg.success <;>
      simp [cli_exit_code, hx]

/-- C1 witness: the amended theorem applied to a concrete valid run. -/
theorem C1_run_workflow_success_iff_witness :
    cli_exit_code
        (run_workflow { dirs := [["media"]], files := [] } ["media"] ["out"]
          ["video", "html"] (fun _ => some true)).agg.success = 0 ↔
      (run_workflow { dirs := [["media"]], files := [] } ["media"] ["out"]
          ["video", "html"] (fun _ => some true)).agg.success = true :=
  (C1_run_workflow_success_iff { dirs := [["media"]], files := [] } ["media"]
    ["out"] ["video", "html"] (fun _ => some true) (by decide)).2.2

/-- C2 counterexample: a `--dry-run` invocation with valid arguments exits 0
but the filesystem afterwards contains the log file the orchestrator's
`WorkflowLogger` created during construction (workflow.py line 815,
workflow_utils.py lines 330-345), so "--dry-run never creates any directory
or file" fails as stated. -/
theorem C2_counterexample :
    (main_dry_run { dirs := [["media"]], files := [] }
        { input_dir := ["media"], output_dir := ["res"],
          steps := ["describe"], dry_run := true } "20250101_000000").2 = 0 ∧
    ["res", "logs", "workflow_20250101_000000.log"] ∈
      (main_dry_run { dirs := [["media"]], files := [] }
        { input_dir := ["media"], output_dir := ["res"],
          steps := ["describe"], dry_run := true } "20250101_000000").1.files ∧
    ["res", "logs", "workflow_20250101_000000.log"] ∉
      ({ dirs := [["media"]], files := [] } : FS).files := by
  decide

/-- C2 (amended): with a valid input directory and valid step names, a
`--dry-run` invocation exits 0, and its only filesystem effects are the
creation of the `logs` directory chain beneath the output directory and of
one timestamped workflow log file inside it — nothing else is created and
nothing is deleted. -/
theorem C2_dry_run_effects (fs : FS) (args : CliArgs) (ts : String)
    (hin : args.input_dir ∈ fs.dirs)
    (hsteps : args.steps.all (fun s => s ∈ available_steps) = true) :
    (main_dry_run fs args ts).2 = 0 ∧
    (∀ f : FPath, f ∈ (main_dry_run fs args ts).1.files ↔
      f ∈ fs.files ∨ f = args.output_dir ++ ["logs", "workflow_" ++ ts ++ ".log"]) ∧
    (∀ d : FPath, d ∈ (main_dry_run fs args ts).1.dirs ↔
      d ∈ fs.dirs ∨ d ∈ pathPrefixes (args.output_dir ++ ["logs"])) := by
  have hmain : main_dry_run fs args ts =
      (workflow_logger_init fs args.output_dir ts, 0) := by
    unfold main_dry_run
    rw [if_pos hin, if_pos hsteps]
  rw [hmain]
  refine ⟨rfl, ?_, ?_⟩
  · intro f
    simp only [workflow_logger_init, mem_files_createFile, files_mkdirParents,
      List.append_assoc, List.cons_append, List.nil_append]
  · intro d
    simp only [workflow_logger_init, createFile, mem_dirs_mkdirParents]

/-- C2 witness: the amended theorem applied to a concrete dry run. -/
theorem C2_dry_run_effects_witness :
    (main_dry_run { dirs := [["media"]], files := [] }
        { input_dir := ["media"], output_dir := ["res"],
          steps := ["describe"], dry_run := true } "t").2 = 0 :=
  (C2_dry_run_effects { dirs := [["media"]], files := [] }
    { input_dir := ["media"], output_dir := ["res"],
      steps := ["describe"], dry_run := true } "t" (by decide) (by decide)).1

/-- C3 counterexample: with the workflow configuration file missing and
`--dry-run` set, the process exits 0 — not non-zero as the claim requires —
because `load_config` silently falls back to `get_default_config` (whose
nested-definition slip returns `None`) and nothing validates the
configuration at CLI parse time. -/
theorem C3_counterexample :
    (main_missing_config { dirs := [["media"]], files := [] }
        { input_dir := ["media"], output_dir := ["res"],
          steps := ["describe"], dry_run := true } "20250101_000000").2.1 = 0 := by
  decide

/-- C3 (amended): a missing workflow configuration file is not surfaced at
CLI parse time.  With `--dry-run` the process exits 0.  Without it, the run
begins — the logger and the full output directory structure are created —
and then aborts with exit code 1 when the first step's
`get_step_output_dir` dereferences the `None` configuration; no step
subprocess is ever launched. -/
theorem C3_missing_config_behaviour (fs : FS) (args : CliArgs) (ts : String)
    (hin : args.input_dir ∈ fs.dirs)
    (hsteps : args.steps.all (fun s => s ∈ available_steps) = true) :
    (args.dry_run = true → (main_missing_config fs args ts).2.1 = 0) ∧
    (args.dry_run = false → args.steps ≠ [] →
      (main_missing_config fs args ts).2.1 = 1 ∧
      (main_missing_config fs args ts).2.2 = [] ∧
      ∀ s ∈ workflow_step_subdirs,
        (args.output_dir ++ [s]) ∈ (main_missing_config fs args ts).1.dirs) := by
  unfold main_missing_config
  rw [if_pos hin, if_pos hsteps]
  constructor
  · intro hdry
    rw [if_pos hdry]
  · intro hdry hne
    rw [if_neg (by simp [hdry])]
    cases hsteps2 : args.steps with
    | nil => exact absurd hsteps2 hne
    | cons a rest =>
      refine ⟨rfl, rfl, ?_⟩
      intro s hs
      exact subdir_mem_create_workflow_paths hs

/-- C3 witness: the amended theorem applied to a concrete non-dry run with
the configuration file missing. -/
theorem C3_missing_config_behaviour_witness :
    (main_missing_config { dirs := [["media"]], files := [] }
        { input_dir := ["media"], output_dir := ["res"],
          steps := ["describe"], dry_run := false } "t").2.1 = 1 :=
  ((C3_missing_config_behaviour { dirs := [["media"]], files := [] }
      { input_dir := ["media"], output_dir := ["res"],
        steps := ["describe"], dry_run := false } "t"
      (by decide) (by decide)).2 rfl (by decide)).1

/-- C4 counterexample: with the registered HEIC extensions — the lower-case
`.heic`/`.heif` of the default configuration literal — a directory
containing a file with the upper-case extension `.HEIC` yields an empty
`find_files_by_type` result: case variations are not matched by the
case-sensitive suffix glob. -/
theorem C4_counterexample :
    ["photos", "a.HEIC"] ∈
      ({ dirs := [["photos"]], files := [["photos", "a.HEIC"]] } : FS).files ∧
    find_files_by_type (default_file_patterns "heic")
      { dirs := [["photos"]], files := [["photos", "a.HEIC"]] } ["photos"] = [] := by
  decide

/-- C4 (amended): the registered HEIC extensions are only the lower-case
`.heic` and `.heif`, and `find_files_by_type` matches them by case-sensitive
suffix: every file beneath the directory whose name ends in `.heic` or
`.heif` exactly is returned, and a returned entry always ends in one of
those lower-case suffixes — so a file whose extension is an upper-case
variant (`.HEIC`/`.HEIF`) is never returned. -/
theorem C4_heic_case_sensitive (fs : FS) (dir f : FPath) :
    (f ∈ fs.files → isStrictPrefix dir f = true →
      (suffixMatch ".heic" (fileName f) = true ∨
        suffixMatch ".heif" (fileName f) = true) →
      f ∈ find_files_by_type (default_file_patterns "heic") fs dir) ∧
    (f ∈ find_files_by_type (default_file_patterns "heic") fs dir →
      suffixMatch ".heic" (fileName f) = true ∨
        suffixMatch ".heif" (fileName f) = true) := by
  have hpat : default_file_patterns "heic" = [".heic", ".heif"] := by decide
  constructor
  · intro hf hpre hsuf
    rw [hpat, mem_find_files_by_type]
    refine ⟨by simp, ?_⟩
    rcases hsuf with h | h
    · exact ⟨".heic", by simp, mem_rglobMatches.mpr ⟨Or.inl hf, hpre, h⟩⟩
    · exact ⟨".heif", by simp, mem_rglobMatches.mpr ⟨Or.inl hf, hpre, h⟩⟩
  · intro hf
    rw [hpat, mem_find_files_by_type] at hf
    obtain ⟨-, p, hp, hm⟩ := hf
    have hsuf := (mem_rglobMatches.mp hm).2.2
    simp only [List.mem_cons, List.not_mem_nil, or_false] at hp
    rcases hp with rfl | rfl
    · exact Or.inl hsuf
    · exact Or.inr hsuf

/-- C4 witness: the amended theorem applied to a directory with an
exact-case `.heic` file. -/
theorem C4_heic_case_sensitive_witness :
    ["photos", "b.heic"] ∈ find_files_by_type (default_file_patterns "heic")
      { dirs := [["photos"]], files := [["photos", "b.heic"]] } ["photos"] :=
  (C4_heic_case_sensitive { dirs := [["photos"]], files := [["photos", "b.heic"]] }
    ["photos"] ["photos", "b.heic"]).1 (by decide) (by decide) (Or.inl (by decide))

/-- C5 counterexample: a run requesting only the `describe` step still ends
with the `extracted_frames` step output directory existing — it is created
eagerly by `create_workflow_paths` at workflow.py line 537 — although the
`video` step never ran, so "directory existence is equivalent to the step
having run" fails as stated. -/
theorem C5_counterexample :
    ["out", "extracted_frames"] ∈
      (run_workflow { dirs := [["in"]], files := [] } ["in"] ["out"]
        ["describe"] (fun _ => some true)).fs.dirs ∧
    (run_workflow { dirs := [["in"]], files := [] } ["in"] ["out"]
        ["describe"] (fun _ => some true)).executed.map Prod.fst = ["describe"] := by
  decide

/-- C5 (amended): `run_workflow` eagerly creates every standard step output
subdirectory (and `logs`) at the start of every run, regardless of which
steps were requested; the orchestrator deletes no directory and no file;
and every dispatched step's output directory does exist afterwards.  Hence
lazy creation and the existence-iff-ran equivalence fail, while the
directions "never deleted" and "ran implies exists" hold. -/
theorem C5_step_dirs (fs : FS) (input out : FPath) (steps : List String)
    (outcome : Nat → Option Bool) :
    (∀ s ∈ workflow_step_subdirs,
      (out ++ [s]) ∈ (run_workflow fs input out steps outcome).fs.dirs) ∧
    (∀ d, d ∈ fs.dirs → d ∈ (run_workflow fs input out steps outcome).fs.dirs) ∧
    ((run_workflow fs input out steps outcome).fs.files = fs.files) ∧
    (∀ q ∈ (run_workflow fs input out steps outcome).executed,
      (out ++ [default_output_subdir (step_internal_name q.1)]) ∈
        (run_workflow fs input out steps outcome).fs.dirs) := by
  refine ⟨?_, ?_, ?_, ?_⟩
  · intro s hs
    unfold run_workflow
    exact run_workflow_loop_dirs_mono _ _ _ _ _ (subdir_mem_create_workflow_paths hs)
  · intro d hd
    unfold run_workflow
    exact run_workflow_loop_dirs_mono _ _ _ _ _ (dirs_subset_create_workflow_paths hd)
  · unfold run_workflow
    rw [run_workflow_loop_files]
    exact files_create_workflow_paths
  · unfold run_workflow
    apply run_workflow_loop_executed_dirs
    intro q hq
    simp at hq

/-- C5 witness: the amended theorem applied to a concrete run. -/
theorem C5_step_dirs_witness :
    ["out", "html_reports"] ∈
      (run_workflow { dirs := [["in"]], files := [] } ["in"] ["out"]
        ["describe"] (fun _ => some true)).fs.dirs :=
  (C5_step_dirs { dirs := [["in"]], files := [] } ["in"] ["out"] ["describe"]
    (fun _ => some true)).1 "html_reports" (by decide)

/-- C6 counterexample: a describe step whose only sub-invocation's process
exits 0 still reports `success=False` when the description file is absent
afterwards (`Description file not created`, workflow.py lines 421-423) — so
"success is determined strictly by the process's exit status" fails as
stated. -/
theorem C6_counterexample :
    (describe_images default_file_patterns
        { dirs := [["in"]], files := [["in", "a.jpg"]] } ["in"] ["out"]
        ["out", "descriptions"]
        (fun _ => { returncode := 0, stdout := "", stderr := "" }) []).1 =
      { success := false, processed := 0,
        error := some "Description file not created" } := by
  decide

/-- C6 (amended): for the convert, video and html steps, `success` is `True`
iff the external process exited 0, and on failure `error_message` is the
captured stderr verbatim (no generic fallback, even when it is empty); the
describe step additionally requires the description file to exist after all
sub-invocations exited 0, failing with `Description file not created`
otherwise. -/
theorem C6_exit_status_classification :
    (∀ (pats : String → List String) (fs : FS) (input : FPath)
        (proc : ProcResult),
      find_files_by_type (pats "heic") fs input ≠ [] →
      ((convert_images pats fs input proc).1.success = true ↔
        proc.returncode = 0) ∧
      (proc.returncode ≠ 0 →
        (convert_images pats fs input proc).1.error = some proc.stderr)) ∧
    (∀ (pats : String → List String) (fs : FS) (input output : FPath)
        (cfg : Option JObj) (proc : ProcResult),
      find_files_by_type (pats "videos") fs input ≠ [] →
      ((extract_video_frames pats fs input output cfg proc).outcome.success = true ↔
        proc.returncode = 0) ∧
      (proc.returncode ≠ 0 →
        (extract_video_frames pats fs input output cfg proc).outcome.error =
          some proc.stderr)) ∧
    (∀ (pats : String → List String) (fs : FS) (input_dir base : FPath)
        (description_file describe_result_file : Option FPath)
        (proc : ProcResult),
      (generate_html pats fs input_dir base description_file
          describe_result_file proc).2 = true →
      ((generate_html pats fs input_dir base description_file
          describe_result_file proc).1.success = true ↔
        proc.returncode = 0) ∧
      (proc.returncode ≠ 0 →
        (generate_html pats fs input_dir base description_file
            describe_result_file proc).1.error = some proc.stderr)) ∧
    (∀ (pats : String → List String) (fs : FS) (input base output_dir : FPath)
        (proc : Nat → ProcResult) (files_after : List FPath)
        (total : Nat) (launched : List FPath),
      ((describe_search_dirs fs input base).1.map
          (fun d => find_files_by_type (pats "images")
            (describe_search_dirs fs input base).2 d)).flatten ≠ [] →
      describe_loop proc ((describe_search_dirs fs input base).1.map
          (fun d => (d, find_files_by_type (pats "images")
            (describe_search_dirs fs input base).2 d))) 0 0 [] =
        DescribeLoopResult.ok total launched →
      ((describe_images pats fs input base output_dir proc files_after).1.success = true ↔
        (output_dir ++ ["image_descriptions.txt"]) ∈ files_after)) := by
  refine ⟨?_, ?_, ?_, ?_⟩
  · intro pats fs input proc hne
    have hne2 : ¬ (find_files_by_type (pats "heic") fs input).isEmpty = true := by
      simp only [List.isEmpty_iff]
      exact hne
    unfold convert_images
    rw [if_neg hne2]
    by_cases hrc : proc.returncode = 0
    · rw [if_pos hrc]
      exact ⟨by simp [hrc], fun hcontra => absurd hrc hcontra⟩
    · rw [if_neg hrc]
      exact ⟨by simp [hrc], fun _ => rfl⟩
  · intro pats fs input output cfg proc hne
    have hne2 : ¬ (find_files_by_type (pats "videos") fs input).isEmpty = true := by
      simp only [List.isEmpty_iff]
      exact hne
    unfold extract_video_frames
    rw [if_neg hne2]
    by_cases hrc : proc.returncode = 0
    · rw [if_pos hrc]
      exact ⟨by simp [hrc], fun hcontra => absurd hrc hcontra⟩
    · rw [if_neg hrc]
      exact ⟨by simp [hrc], fun _ => rfl⟩
  · intro pats fs input_dir base description_file describe_result_file proc hlaunch
    rcases generate_html_cases pats fs input_dir base description_file
        describe_result_file proc with hcase | hcase
    · rw [hcase]
      unfold run_html_renderer
      by_cases hrc : proc.returncode = 0
      · rw [if_pos hrc]
        exact ⟨by simp [hrc], fun hcontra => absurd hrc hcontra⟩
      · rw [if_neg hrc]
        exact ⟨by simp [hrc], fun _ => rfl⟩
    · rw [hcase] at hlaunch
      cases hlaunch
  · intro pats fs input base output_dir proc files_after total launched hne hloop
    have hne2 : ¬ ((describe_search_dirs fs input base).1.map
        (fun d => find_files_by_type (pats "images")
          (describe_search_dirs fs input base).2 d)).flatten.isEmpty = true := by
      simp only [List.isEmpty_iff]
      exact hne
    unfold describe_images
    rw [if_neg hne2, hloop]
    by_cases hdesc : (output_dir ++ ["image_descriptions.txt"]) ∈ files_after
    · simp [hdesc]
    · simp [hdesc]

/-- C6 witness: the amended theorem applied to a concrete failing convert
step, whose error is the captured stderr verbatim. -/
theorem C6_exit_status_classification_witness :
    (convert_images default_file_patterns
        { dirs := [["in"]], files := [["in", "p.heic"]] } ["in"]
        { returncode := 1, stdout := "", stderr := "boom" }).1.error =
      some "boom" :=
  ((C6_exit_status_classification).1 default_file_patterns
    { dirs := [["in"]], files := [["in", "p.heic"]] } ["in"]
    { returncode := 1, stdout := "", stderr := "boom" } (by decide)).2 (by decide)

/-- C7: a step whose discovery finds no matching files of its category
returns `success=True, processed=0` immediately and launches no external
process — the video step additionally leaves the frame-extractor
configuration untouched, and the describe step's check is over the merged
discovery of all of its search directories. -/
theorem C7_noop_steps (pats : String → List String) (fs : FS)
    (input output : FPath) (cfg : Option JObj) (proc : ProcResult)
    (proc2 : Nat → ProcResult) (base output_dir : FPath)
    (files_after : List FPath) :
    (find_files_by_type (pats "videos") fs input = [] →
      extract_video_frames pats fs input output cfg proc =
        { outcome := { success := true, processed := 0, error := none },
          launched := false, config_after := cfg }) ∧
    (find_files_by_type (pats "heic") fs input = [] →
      convert_images pats fs input proc =
        ({ success := true, processed := 0, error := none }, false)) ∧
    (((describe_search_dirs fs input base).1.map
        (fun d => find_files_by_type (pats "images")
          (describe_search_dirs fs input base).2 d)).flatten = [] →
      describe_images pats fs input base output_dir proc2 files_after =
        ({ success := true, processed := 0, error := none }, [])) := by
  refine ⟨?_, ?_, ?_⟩
  · intro h
    unfold extract_video_frames
    rw [if_pos (by simp [h])]
  · intro h
    unfold convert_images
    rw [if_pos (by simp [h])]
  · intro h
    unfold describe_images
    rw [if_pos (by simp [h])]

/-- C7 witness: the claim theorem applied to a directory with no HEIC
files: the convert step is a successful no-op even though the process
oracle would have reported failure had it been launched. -/
theorem C7_noop_steps_witness :
    convert_images default_file_patterns
        { dirs := [["in"]], files := [["in", "a.txt"]] } ["in"]
        { returncode := 1, stdout := "", stderr := "x" } =
      ({ success := true, processed := 0, error := none }, false) :=
  (C7_noop_steps default_file_patterns
    { dirs := [["in"]], files := [["in", "a.txt"]] } ["in"] ["out"] none
    { returncode := 1, stdout := "", stderr := "x" }
    (fun _ => { returncode := 1, stdout := "", stderr := "x" }) ["out"]
    ["out", "descriptions"] []).2.1 (by decide)

/-- C8: within the describe step the per-directory sub-invocations run in
sequence and fail fast — when every directory before some directory `d`
(each containing images) succeeds and `d`'s process exits non-zero, the loop
stops there: the remaining directories are never launched, and the step's
overall result is a failure surfacing that first error as
`Failed processing <dir>: <stderr>`. -/
theorem C8_describe_fail_fast (proc : Nat → ProcResult)
    (pre : List (FPath × List FPath)) (d : FPath × List FPath)
    (post : List (FPath × List FPath))
    (hpre : ∀ p ∈ pre, p.2 ≠ [])
    (hok : ∀ k, k < pre.length → (proc k).returncode = 0)
    (hd : d.2 ≠ [])
    (hfail : (proc pre.length).returncode ≠ 0) :
    (describe_loop proc (pre ++ d :: post) 0 0 [] =
      DescribeLoopResult.failed d.1 (proc pre.length).stderr
        (pre.map Prod.fst ++ [d.1])) ∧
    (∀ (pats : String → List String) (fs : FS) (input base output_dir : FPath)
        (files_after : List FPath) (dir : FPath) (err : String)
        (launched : List FPath),
      ((describe_search_dirs fs input base).1.map
          (fun d2 => find_files_by_type (pats "images")
            (describe_search_dirs fs input base).2 d2)).flatten ≠ [] →
      describe_loop proc ((describe_search_dirs fs input base).1.map
          (fun d2 => (d2, find_files_by_type (pats "images")
            (describe_search_dirs fs input base).2 d2))) 0 0 [] =
        DescribeLoopResult.failed dir err launched →
      describe_images pats fs input base output_dir proc files_after =
        ({ success := false, processed := 0,
           error := some ("Failed processing " ++ String.intercalate "/" dir
             ++ ": " ++ err) }, launched)) := by
  constructor
  · have h := describe_loop_fail_fast proc pre d post 0 0 [] hpre
      (by intro k hk; simpa using hok k hk) hd (by simpa using hfail)
    simpa using h
  · intro pats fs input base output_dir files_after dir err launched hne hloop
    have hne2 : ¬ ((describe_search_dirs fs input base).1.map
        (fun d2 => find_files_by_type (pats "images")
          (describe_search_dirs fs input base).2 d2)).flatten.isEmpty = true := by
      simp only [List.isEmpty_iff]
      exact hne
    unfold describe_images
    rw [if_neg hne2, hloop]

/-- C8 witness: the claim theorem applied to two image-bearing directories
whose first sub-invocation fails. -/
theorem C8_describe_fail_fast_witness :
    describe_loop
        (fun i => if i = 0
          then { returncode := 0, stdout := "", stderr := "" }
          else { returncode := 1, stdout := "", stderr := "boom" })
        ([(["a"], [["a", "x.jpg"]])] ++ (["b"], [["b", "y.jpg"]]) ::
          [(["c"], [["c", "z.jpg"]])]) 0 0 [] =
      DescribeLoopResult.failed ["b"]
        (if (1 : Nat) = 0
          then ({ returncode := 0, stdout := "", stderr := "" } : ProcResult)
          else { returncode := 1, stdout := "", stderr := "boom" }).stderr
        ([(["a"], [["a", "x.jpg"]])].map Prod.fst ++ [["b"]]) :=
  (C8_describe_fail_fast
    (fun i => if i = 0
      then { returncode := 0, stdout := "", stderr := "" }
      else { returncode := 1, stdout := "", stderr := "boom" })
    [(["a"], [["a", "x.jpg"]])] (["b"], [["b", "y.jpg"]])
    [(["c"], [["c", "z.jpg"]])]
    (by decide) (by decide) (by decide) (by decide)).1

/-- C9: (i) the describe step's search set is exactly the original input
directory, plus the converted-images directory when it exists and is
non-empty, plus the extracted-frames directory when it exists and is
non-empty; (ii) the images discovered in those directories are merged and
one describer invocation is made per search directory that contains images;
(iii) `run_workflow` passes the original input directory to the describe
step regardless of the output-threading performed for earlier steps. -/
theorem C9_describe_inputs (pats : String → List String) (fs : FS)
    (input base output_dir : FPath) (proc : Nat → ProcResult)
    (files_after : List FPath)
    (hwf : fs.wf) (hok : ∀ i, (proc i).returncode = 0) :
    ((describe_search_dirs fs input base).1 =
      [input]
      ++ (if (base ++ ["converted_images"]) ∈ fs.dirs ∧
             dirHasEntry fs (base ++ ["converted_images"]) = true
          then [base ++ ["converted_images"]] else [])
      ++ (if (base ++ ["extracted_frames"]) ∈ fs.dirs ∧
             dirHasEntry fs (base ++ ["extracted_frames"]) = true
          then [base ++ ["extracted_frames"]] else [])) ∧
    ((describe_images pats fs input base output_dir proc files_after).2 =
      (describe_search_dirs fs input base).1.filter
        (fun d => !(find_files_by_type (pats "images")
            (describe_search_dirs fs input base).2 d).isEmpty)) ∧
    (∀ (fs2 : FS) (input2 out2 : FPath) (steps : List String)
        (oc : Nat → Option Bool),
      ∀ q ∈ (run_workflow fs2 input2 out2 steps oc).executed,
        q.1 = "describe" → q.2 = input2) := by
  refine ⟨describe_search_dirs_spec fs input base hwf, ?_, ?_⟩
  · unfold describe_images
    by_cases hempty : ((describe_search_dirs fs input base).1.map
        (fun d => find_files_by_type (pats "images")
          (describe_search_dirs fs input base).2 d)).flatten.isEmpty = true
    · rw [if_pos hempty]
      have hall : ∀ d ∈ (describe_search_dirs fs input base).1,
          find_files_by_type (pats "images")
            (describe_search_dirs fs input base).2 d = [] := by
        intro d hd
        rw [List.isEmpty_iff, List.flatten_eq_nil_iff] at hempty
        exact hempty _ (List.mem_map.mpr ⟨d, hd, rfl⟩)
      symm
      rw [List.filter_eq_nil_iff]
      intro d hd
      simp [hall d hd]
    · rw [if_neg hempty]
      rw [describe_loop_all_ok proc hok]
      by_cases hdesc : (output_dir ++ ["image_descriptions.txt"]) ∈ files_after
      · simp only [if_pos hdesc]
        simp [filter_map_pair_fst]
      · simp only [if_neg hdesc]
        simp [filter_map_pair_fst]
  · intro fs2 input2 out2 steps oc
    unfold run_workflow
    apply run_workflow_loop_describe_input
    intro q hq
    simp at hq

/-- C9 witness: the claim theorem applied to a concrete run with one image
in the input directory and neither auxiliary directory present. -/
theorem C9_describe_inputs_witness :
    (describe_images default_file_patterns
        { dirs := [["in"]], files := [["in", "a.jpg"]] } ["in"] ["out"]
        ["out", "descriptions"]
        (fun _ => { returncode := 0, stdout := "", stderr := "" }) []).2 =
      [["in"]] := by
  have h := (C9_describe_inputs default_file_patterns
    { dirs := [["in"]], files := [["in", "a.jpg"]] } ["in"] ["out"]
    ["out", "descriptions"]
    (fun _ => { returncode := 0, stdout := "", stderr := "" }) []
    ⟨by decide, by decide⟩ (fun _ => rfl)).2.1
  rw [h]
  decide

/-- C10 counterexample: a video-extraction step that finds one video file
but whose frame-extractor config file is missing (or unparsable) mutates no
file at all — the exception in `_update_frame_extractor_config` is caught
and only logged (workflow.py lines 696-697) and the extractor is launched
anyway — so "every video-extraction step that finds at least one video file
rewrites the config file" fails as stated. -/
theorem C10_counterexample :
    (extract_video_frames default_file_patterns
        { dirs := [["in"]], files := [["in", "v.mp4"]] } ["in"]
        ["out", "extracted_frames"] none
        { returncode := 0, stdout := "", stderr := "" }).config_after = none ∧
    (extract_video_frames default_file_patterns
        { dirs := [["in"]], files := [["in", "v.mp4"]] } ["in"]
        ["out", "extracted_frames"] none
        { returncode := 0, stdout := "", stderr := "" }).launched = true := by
  decide

/-- C10 (amended): a video-extraction step that finds at least one video
file and whose frame-extractor config file exists and parses as a JSON
object rewrites that file in place before launching the extractor — setting
its `output_directory` key to the step's output directory while preserving
every other key — and the step never restores the original contents: the
rewritten object is still the file's content when the step returns.  (When
the config file is missing or unparsable the rewrite is silently skipped.) -/
theorem C10_config_rewrite (pats : String → List String) (fs : FS)
    (input output : FPath) (o : JObj) (proc : ProcResult)
    (hvids : find_files_by_type (pats "videos") fs input ≠ []) :
    (extract_video_frames pats fs input output (some o) proc).config_after =
      some (setKey o "output_directory"
        (JVal.str (String.intercalate "/" output))) ∧
    lookupKey (setKey o "output_directory"
        (JVal.str (String.intercalate "/" output))) "output_directory" =
      some (JVal.str (String.intercalate "/" output)) ∧
    (∀ k, k ≠ "output_directory" →
      lookupKey (setKey o "output_directory"
        (JVal.str (String.intercalate "/" output))) k = lookupKey o k) ∧
    (extract_video_frames pats fs input output (some o) proc).launched = true := by
  have hne2 : ¬ (find_files_by_type (pats "videos") fs input).isEmpty = true := by
    simp only [List.isEmpty_iff]
    exact hvids
  unfold extract_video_frames
  rw [if_neg hne2]
  refine ⟨?_, lookupKey_setKey_same, fun k hk => lookupKey_setKey_other hk, ?_⟩
  · by_cases hrc : proc.returncode = 0 <;>
      simp [hrc, update_frame_extractor_config]
  · by_cases hrc : proc.returncode = 0 <;> simp [hrc]

/-- C10 witness: the amended theorem applied to a concrete step with an
existing config object. -/
theorem C10_config_rewrite_witness :
    (extract_video_frames default_file_patterns
        { dirs := [["in"]], files := [["in", "v.mp4"]] } ["in"]
        ["out", "extracted_frames"] (some [("fps", JVal.num 2)])
        { returncode := 0, stdout := "", stderr := "" }).launched = true :=
  (C10_config_rewrite default_file_patterns
    { dirs := [["in"]], files := [["in", "v.mp4"]] } ["in"]
    ["out", "extracted_frames"] [("fps", JVal.num 2)]
    { returncode := 0, stdout := "", stderr := "" } (by decide)).2.2.2
